import Mathlib

/-!
Shallow embedding of the bus-staff assignment microservice
(Go + gin + pgx, files handlers.go / database.go / main.go).

The persistence layer is modelled as an explicit store value (a list of
assignment rows plus the SERIAL id counter); the SQL statements of
database.go become pure functions over that store, including the
CHECK (role / status) and UNIQUE (bus_id, staff_id, role, start_date)
constraints declared in createTables.  Timestamps (CURRENT_TIMESTAMP)
are modelled by an explicit clock argument `now : Nat`.  Connectivity
failures of the database driver are outside the model, so the branches
of the handlers that map driver errors to HTTP 500 appear only where a
constraint violation can produce them.  Result ordering of the SQL
queries (ORDER BY created_at DESC) is not modelled; rows are kept in
insertion order and the claims below are about contents and counts.
-/
/-- Calendar date, the result of parsing a YYYY-MM-DD string with
Go time.Parse layout 2006-01-02. -/
structure Date where
  year : Nat
  month : Nat
  day : Nat
deriving DecidableEq, Repr

def isLeapYear (y : Nat) : Bool :=
  (y % 4 == 0 && y % 100 != 0) || y % 400 == 0

def daysInMonth (y m : Nat) : Nat :=
  if m = 2 then (if isLeapYear y then 29 else 28)
  else if m = 4 ∨ m = 6 ∨ m = 9 ∨ m = 11 then 30
  else 31

/-- Decimal reading of a nonempty all-digit character sequence. -/
def digitsToNat? (cs : List Char) : Option Nat :=
  if cs = [] then none
  else if cs.all Char.isDigit then
    some (cs.foldl (fun n c => 10 * n + (c.toNat - 48)) 0)
  else none

/-- Splits a character sequence at every dash. -/
def splitOnDash (cs : List Char) : List (List Char) :=
  match cs with
  | [] => [[]]
  | c :: rest =>
    if c = '-' then [] :: splitOnDash rest
    else
      match splitOnDash rest with
      | [] => [[c]]
      | h :: t => (c :: h) :: t

/-- Embeds Go time.Parse with layout 2006-01-02: exactly four year digits,
two month digits, two day digits, separated by dashes, with month and day
range-checked against the calendar. -/
def parseDate (s : String) : Option Date :=
  match splitOnDash s.data with
  | [ys, ms, ds] =>
    if ys.length = 4 ∧ ms.length = 2 ∧ ds.length = 2 then
      match digitsToNat? ys, digitsToNat? ms, digitsToNat? ds with
      | some y, some m, some d =>
        if 1 ≤ m ∧ m ≤ 12 ∧ 1 ≤ d ∧ d ≤ daysInMonth y m then
          some ⟨y, m, d⟩
        else none
      | _, _, _ => none
    else none
  | _ => none

/-- Embeds the shared end-date snippet of handleCreateAssignment and
handleUpdateAssignment: an empty end_date string means no end date,
otherwise the string must parse as a date. -/
def parseEndDate (s : String) : Option (Option Date) :=
  if s = "" then some none
  else (parseDate s).map some

/-- Embeds strconv.Atoi as used on path parameters: an optional sign
followed by decimal digits (integer overflow of the Go int type is not
modelled; no claim involves ids of that magnitude). -/
def atoi (s : String) : Option Int :=
  match s.data with
  | [] => none
  | c :: rest =>
    if c = '-' then (digitsToNat? rest).map (fun n => -(n : Int))
    else if c = '+' then (digitsToNat? rest).map (fun n => (n : Int))
    else (digitsToNat? (c :: rest)).map (fun n => (n : Int))

/-- Embeds the Assignment struct of handlers.go (time.Time fields become
the Date model for dates and a Nat clock value for timestamps). -/
structure Assignment where
  id : Int
  bus_id : Int
  staff_id : Int
  role : String
  start_date : Date
  end_date : Option Date
  status : String
  created_at : Nat
  updated_at : Nat
deriving DecidableEq, Repr

/-- The assignments relation plus the SERIAL id sequence. -/
structure Store where
  rows : List Assignment
  nextId : Int
deriving DecidableEq, Repr

/-- Store invariant maintained by the SERIAL primary key: row ids are
distinct and below the next sequence value. -/
def Store.WF (s : Store) : Prop :=
  (s.rows.map (fun a => a.id)).Nodup ∧ ∀ a ∈ s.rows, a.id < s.nextId

instance (s : Store) : Decidable s.WF := by
  unfold Store.WF; infer_instance

inductive StoreError where
  | constraintViolation
  | noRows
deriving DecidableEq, Repr

/-- The CHECK (role IN ('driver', 'conductor')) constraint of the
assignments table. -/
def roleCheckOK (r : String) : Bool :=
  r == "driver" || r == "conductor"

/-- The CHECK (status IN ('active', 'completed', 'cancelled')) constraint. -/
def statusCheckOK (st : String) : Bool :=
  st == "active" || st == "completed" || st == "cancelled"

/-- The UNIQUE (bus_id, staff_id, role, start_date) constraint: true when
some row already carries the given key. -/
def uniqueConflict (rows : List Assignment) (b st : Int) (r : String) (sd : Date) : Bool :=
  rows.any (fun a => decide (a.bus_id = b ∧ a.staff_id = st ∧ a.role = r ∧ a.start_date = sd))

/-- Embeds CreateAssignment of database.go: INSERT with RETURNING id,
created_at, updated_at, subject to the table CHECK and UNIQUE constraints. -/
def CreateAssignment (s : Store) (now : Nat) (a : Assignment) :
    Except StoreError (Store × Assignment) :=
  if roleCheckOK a.role = false then .error .constraintViolation
  else if statusCheckOK a.status = false then .error .constraintViolation
  else if uniqueConflict s.rows a.bus_id a.staff_id a.role a.start_date then
    .error .constraintViolation
  else
    let stored : Assignment := { a with id := s.nextId, created_at := now, updated_at := now }
    .ok ({ rows := s.rows ++ [stored], nextId := s.nextId + 1 }, stored)

/-- Embeds GetAssignmentByID of database.go: SELECT by primary key,
pgx.ErrNoRows mapped to the explicit not-found value none. -/
def GetAssignmentByID (s : Store) (id : Int) : Option Assignment :=
  s.rows.find? (fun a => a.id == id)

/-- Embeds GetAssignmentsByBusID of database.go: SELECT WHERE bus_id
matches (ORDER BY created_at DESC abstracted away, see header). -/
def GetAssignmentsByBusID (s : Store) (busID : Int) : List Assignment :=
  s.rows.filter (fun a => a.bus_id == busID)

/-- Embeds GetAssignmentsByStaffID of database.go: SELECT WHERE staff_id
matches. -/
def GetAssignmentsByStaffID (s : Store) (staffID : Int) : List Assignment :=
  s.rows.filter (fun a => a.staff_id == staffID)

/-- Embeds UpdateAssignment of database.go: UPDATE of the six SET columns
plus updated_at = CURRENT_TIMESTAMP WHERE id matches, RETURNING
updated_at.  When no row matches, the RETURNING scan yields
pgx.ErrNoRows; the CHECK and UNIQUE constraints apply to the new values.
The returned assignment is the caller struct with its updated_at field
overwritten by the scan, exactly as in the Go code. -/
def UpdateAssignment (s : Store) (now : Nat) (a : Assignment) :
    Except StoreError (Store × Assignment) :=
  if GetAssignmentByID s a.id = none then .error .noRows
  else if roleCheckOK a.role = false then .error .constraintViolation
  else if statusCheckOK a.status = false then .error .constraintViolation
  else if s.rows.any (fun r => r.id != a.id &&
      decide (r.bus_id = a.bus_id ∧ r.staff_id = a.staff_id ∧
              r.role = a.role ∧ r.start_date = a.start_date)) then
    .error .constraintViolation
  else
    .ok ({ s with rows := s.rows.map (fun r =>
            if r.id == a.id then
              { r with bus_id := a.bus_id, staff_id := a.staff_id, role := a.role,
                       start_date := a.start_date, end_date := a.end_date,
                       status := a.status, updated_at := now }
            else r) },
         { a with updated_at := now })

/-- Embeds DeleteAssignment of database.go: DELETE WHERE id matches via
db.Exec, which reports no error whether or not a row was removed. -/
def DeleteAssignment (s : Store) (id : Int) : Store :=
  { s with rows := s.rows.filter (fun a => a.id != id) }

/-- Embeds the CreateAssignmentRequest struct (the bound form, after a
successful ShouldBindJSON). -/
structure CreateAssignmentRequest where
  bus_id : Int
  staff_id : Int
  role : String
  start_date : String
  end_date : String
deriving DecidableEq, Repr

/-- A syntactically valid JSON body for the create/update endpoints:
each field either present with a value or absent (none).  A body that is
not valid JSON at all is modelled as Option.none at the handler input. -/
structure RawCreateBody where
  bus_id : Option Int
  staff_id : Option Int
  role : Option String
  start_date : Option String
  end_date : Option String
deriving DecidableEq, Repr

/-- Embeds gin ShouldBindJSON for CreateAssignmentRequest: absent JSON
fields decode to the Go zero values (0 for int, empty string), after
which the required binding tags on bus_id, staff_id, role and start_date
reject zero values.  end_date carries no binding tag. -/
def bindCreateRequest (b : RawCreateBody) : Option CreateAssignmentRequest :=
  let req : CreateAssignmentRequest :=
    { bus_id := b.bus_id.getD 0, staff_id := b.staff_id.getD 0,
      role := b.role.getD "", start_date := b.start_date.getD "",
      end_date := b.end_date.getD "" }
  if req.bus_id = 0 ∨ req.staff_id = 0 ∨ req.role = "" ∨ req.start_date = "" then none
  else some req

/-- ShouldBindJSON on the handler input: a malformed JSON document (none)
or a failed required binding both yield a binding error. -/
def shouldBindJSON (body : Option RawCreateBody) : Option CreateAssignmentRequest :=
  body.bind bindCreateRequest

/-- Outcome of handleCreateAssignment, one constructor per c.JSON call. -/
inductive CreateResult where
  | badRequest (msg : String)
  | serverError (msg : String)
  | created (a : Assignment)
deriving DecidableEq, Repr

def CreateResult.statusCode : CreateResult → Nat
  | .badRequest _ => 400
  | .serverError _ => 500
  | .created _ => 201

/-- Embeds handleCreateAssignment of handlers.go: bind the body, parse
start_date, parse end_date when non-empty, validate the role, build the
assignment with status active and call the store. -/
def handleCreateAssignment (s : Store) (now : Nat) (body : Option RawCreateBody) :
    CreateResult × Store :=
  match shouldBindJSON body with
  | none => (.badRequest "binding error", s)
  | some req =>
    match parseDate req.start_date with
    | none => (.badRequest "Invalid start_date format. Use YYYY-MM-DD", s)
    | some startDate =>
      match parseEndDate req.end_date with
      | none => (.badRequest "Invalid end_date format. Use YYYY-MM-DD", s)
      | some endDate =>
        if req.role ≠ "driver" ∧ req.role ≠ "conductor" then
          (.badRequest "Role must be driver or conductor", s)
        else
          let assignment : Assignment :=
            { id := 0, bus_id := req.bus_id, staff_id := req.staff_id,
              role := req.role, start_date := startDate, end_date := endDate,
              status := "active", created_at := 0, updated_at := 0 }
          match CreateAssignment s now assignment with
          | .error _ => (.serverError "Failed to create assignment", s)
          | .ok (s2, stored) => (.created stored, s2)

/-- Outcome of handleUpdateAssignment, one constructor per c.JSON call. -/
inductive UpdateResult where
  | badRequest (msg : String)
  | notFound
  | serverError (msg : String)
  | updated (a : Assignment)
deriving DecidableEq, Repr

def UpdateResult.statusCode : UpdateResult → Nat
  | .badRequest _ => 400
  | .notFound => 404
  | .serverError _ => 500
  | .updated _ => 200

/-- Embeds handleUpdateAssignment of handlers.go: parse the path id,
check existence via GetAssignmentByID, bind the body, parse the dates,
overwrite the five request fields on the existing record and call the
store update.  Note the Go code performs no role validation on this
path. -/
def handleUpdateAssignment (s : Store) (now : Nat) (idStr : String)
    (body : Option RawCreateBody) : UpdateResult × Store :=
  match atoi idStr with
  | none => (.badRequest "Invalid assignment ID", s)
  | some id =>
    match GetAssignmentByID s id with
    | none => (.notFound, s)
    | some existing =>
      match shouldBindJSON body with
      | none => (.badRequest "binding error", s)
      | some req =>
        match parseDate req.start_date with
        | none => (.badRequest "Invalid start_date format. Use YYYY-MM-DD", s)
        | some startDate =>
          match parseEndDate req.end_date with
          | none => (.badRequest "Invalid end_date format. Use YYYY-MM-DD", s)
          | some endDate =>
            let upd : Assignment :=
              { existing with bus_id := req.bus_id, staff_id := req.staff_id,
                              role := req.role, start_date := startDate,
                              end_date := endDate }
            match UpdateAssignment s now upd with
            | .error _ => (.serverError "Failed to update assignment", s)
            | .ok (s2, a) => (.updated a, s2)

/-- Outcome of handleDeleteAssignment.  The store delete never fails in
the model, so the 500 branch of the Go code is unreachable here. -/
inductive DeleteResult where
  | badRequest (msg : String)
  | notFound
  | okDeleted
deriving DecidableEq, Repr

def DeleteResult.statusCode : DeleteResult → Nat
  | .badRequest _ => 400
  | .notFound => 404
  | .okDeleted => 200

/-- Embeds handleDeleteAssignment of handlers.go: parse the path id,
check existence via GetAssignmentByID, then delete. -/
def handleDeleteAssignment (s : Store) (idStr : String) : DeleteResult × Store :=
  match atoi idStr with
  | none => (.badRequest "Invalid assignment ID", s)
  | some id =>
    match GetAssignmentByID s id with
    | none => (.notFound, s)
    | some _ => (.okDeleted, DeleteAssignment s id)

/-- Embeds the mockBuses map of handlers.go as id to (plate_number, model). -/
def mockBuses (id : Int) : Option (String × String) :=
  if id = 1 then some ("ABC-1234", "Toyota Coaster")
  else if id = 2 then some ("XYZ-5678", "Isuzu NPR")
  else none

/-- Embeds the mockStaff map of handlers.go as id to (name, position). -/
def mockStaff (id : Int) : Option (String × String) :=
  if id = 1 then some ("John Driver", "driver")
  else if id = 2 then some ("Jane Conductor", "conductor")
  else none

/-- Embeds AssignmentWithDetails: the omitempty JSON fields become
Option, none meaning the field is omitted from the response. -/
structure AssignmentWithDetails where
  assignment : Assignment
  bus_plate_number : Option String
  bus_model : Option String
  staff_name : Option String
  staff_position : Option String
deriving DecidableEq, Repr

/-- Loop body of handleGetStaffForBus: enrich with staff details only. -/
def staffDetails (a : Assignment) : AssignmentWithDetails :=
  match mockStaff a.staff_id with
  | some (n, p) =>
    { assignment := a, bus_plate_number := none, bus_model := none,
      staff_name := some n, staff_position := some p }
  | none =>
    { assignment := a, bus_plate_number := none, bus_model := none,
      staff_name := none, staff_position := none }

/-- Loop body of handleGetAssignmentsForStaff: enrich with bus details only. -/
def busDetails (a : Assignment) : AssignmentWithDetails :=
  match mockBuses a.bus_id with
  | some (pl, mo) =>
    { assignment := a, bus_plate_number := some pl, bus_model := some mo,
      staff_name := none, staff_position := none }
  | none =>
    { assignment := a, bus_plate_number := none, bus_model := none,
      staff_name := none, staff_position := none }

/-- Response envelope of handleGetStaffForBus. -/
structure BusEnvelope where
  bus_id : Int
  assignments : List AssignmentWithDetails
  count : Nat
deriving DecidableEq, Repr

inductive BusListResult where
  | badRequest (msg : String)
  | ok (env : BusEnvelope)
deriving DecidableEq, Repr

/-- Embeds handleGetStaffForBus of handlers.go: parse the bus id, query
by bus id, keep only status active rows, enrich each with staff details
(the Go for-append loop is the foldl), and wrap with bus_id and count. -/
def handleGetStaffForBus (s : Store) (busIdStr : String) : BusListResult :=
  match atoi busIdStr with
  | none => .badRequest "Invalid bus ID"
  | some busID =>
    let assignments := GetAssignmentsByBusID s busID
    let busAssignments := assignments.foldl
      (fun acc a => if a.status = "active" then acc ++ [staffDetails a] else acc) []
    .ok { bus_id := busID, assignments := busAssignments,
          count := busAssignments.length }

/-- Response envelope of handleGetAssignmentsForStaff. -/
structure StaffEnvelope where
  staff_id : Int
  assignments : List AssignmentWithDetails
  count : Nat
deriving DecidableEq, Repr

inductive StaffListResult where
  | badRequest (msg : String)
  | ok (env : StaffEnvelope)
deriving DecidableEq, Repr

/-- Embeds handleGetAssignmentsForStaff of handlers.go: parse the staff
id, query by staff id with no status filter, enrich each with bus
details, and wrap with staff_id and count. -/
def handleGetAssignmentsForStaff (s : Store) (staffIdStr : String) : StaffListResult :=
  match atoi staffIdStr with
  | none => .badRequest "Invalid staff ID"
  | some staffID =>
    let assignments := GetAssignmentsByStaffID s staffID
    let staffAssignments := assignments.foldl
      (fun acc a => acc ++ [busDetails a]) []
    .ok { staff_id := staffID, assignments := staffAssignments,
          count := staffAssignments.length }

/- Concrete fixtures used by witnesses and counterexample evaluations. -/
/-- An assignment row as stored after one valid create. -/
def sampleRow : Assignment :=
  { id := 1, bus_id := 1, staff_id := 1, role := "driver",
    start_date := ⟨2025, 9, 21⟩, end_date := none, status := "active",
    created_at := 100, updated_at := 100 }

/-- A store holding just sampleRow. -/
def sampleStore : Store := { rows := [sampleRow], nextId := 2 }

/-- The empty store at sequence start. -/
def emptyStore : Store := { rows := [], nextId := 1 }

/-- A well-formed body whose role is neither driver nor conductor. -/
def pilotBody : RawCreateBody :=
  { bus_id := some 1, staff_id := some 1, role := some "pilot",
    start_date := some "2025-09-21", end_date := none }

/-- A fully valid create/update body. -/
def validBody : RawCreateBody :=
  { bus_id := some 1, staff_id := some 1, role := some "driver",
    start_date := some "2025-09-21", end_date := none }

def updBody : RawCreateBody :=
  { bus_id := some 2, staff_id := some 2, role := some "conductor",
    start_date := some "2025-10-01", end_date := some "2025-12-31" }

def updatedSampleRow : Assignment :=
  { id := 1, bus_id := 2, staff_id := 2, role := "conductor",
    start_date := ⟨2025, 10, 1⟩, end_date := some ⟨2025, 12, 31⟩, status := "active",
    created_at := 100, updated_at := 200 }

def updatedSampleStore : Store := { rows := [updatedSampleRow], nextId := 2 }

def listRow1 : Assignment :=
  { id := 1, bus_id := 1, staff_id := 1, role := "driver",
    start_date := ⟨2025, 9, 21⟩, end_date := none, status := "active",
    created_at := 100, updated_at := 100 }

def listRow2 : Assignment :=
  { id := 2, bus_id := 1, staff_id := 2, role := "conductor",
    start_date := ⟨2025, 9, 22⟩, end_date := none, status := "cancelled",
    created_at := 101, updated_at := 101 }

def listRow3 : Assignment :=
  { id := 3, bus_id := 2, staff_id := 3, role := "driver",
    start_date := ⟨2025, 9, 23⟩, end_date := none, status := "active",
    created_at := 102, updated_at := 102 }

def listStore : Store := { rows := [listRow1, listRow2, listRow3], nextId := 4 }

/- Helper lemmas shared by the claim theorems. -/
theorem foldl_filter_append {α β : Type} (p : α → Prop) [DecidablePred p] (g : α → β)
    (l : List α) :
    ∀ acc : List β,
      l.foldl (fun acc a => if p a then acc ++ [g a] else acc) acc
        = acc ++ (l.filter (fun a => decide (p a))).map g := by
  induction l with
  | nil => intro acc; simp
  | cons a l ih =>
    intro acc
    by_cases h : p a <;> simp [h, ih, List.filter_cons]

theorem foldl_append_map {α β : Type} (g : α → β) (l : List α) :
    ∀ acc : List β,
      l.foldl (fun acc a => acc ++ [g a]) acc = acc ++ l.map g := by
  induction l with
  | nil => intro acc; simp
  | cons a l ih => intro acc; simp [ih]

theorem updateMissingAux (s : Store) (now : Nat) (idStr : String) (id : Int)
    (body : Option RawCreateBody)
    (hid : atoi idStr = some id)
    (hmiss : GetAssignmentByID s id = none) :
    handleUpdateAssignment s now idStr body = (.notFound, s) := by
  simp only [handleUpdateAssignment, hid, hmiss]

/-- Claim C2: updating an id with no matching assignment returns 404 and
leaves the store exactly as it was, whatever the request body. -/
theorem update_nonexistent_returns_404_store_unchanged
    (s : Store) (now : Nat) (idStr : String) (id : Int) (body : Option RawCreateBody)
    (hid : atoi idStr = some id)
    (hmiss : GetAssignmentByID s id = none) :
    handleUpdateAssignment s now idStr body = (.notFound, s) :=
  updateMissingAux s now idStr id body hid hmiss

/-- Claim C2 witness: id 999999 on the empty store with a valid body. -/
theorem update_nonexistent_returns_404_store_unchanged_witness :
    handleUpdateAssignment emptyStore 0 "999999" (some validBody) = (.notFound, emptyStore) :=
  update_nonexistent_returns_404_store_unchanged emptyStore 0 "999999" 999999
    (some validBody) (by decide) (by decide)

/-- Claim C9: the existence check runs before body parsing, so a missing
id yields 404 even for a malformed body that would otherwise bind-fail. -/
theorem update_nonexistent_404_precedes_body_400
    (s : Store) (now : Nat) (idStr : String) (id : Int) (body : Option RawCreateBody)
    (hid : atoi idStr = some id)
    (hmiss : GetAssignmentByID s id = none)
    (hbad : shouldBindJSON body = none) :
    (handleUpdateAssignment s now idStr body).1 = .notFound ∧
    (handleUpdateAssignment s now idStr body).1.statusCode = 404 := by
  rw [updateMissingAux s now idStr id body hid hmiss]
  exact ⟨rfl, rfl⟩

/-- Claim C9 witness: missing id with a malformed JSON body. -/
theorem update_nonexistent_404_precedes_body_400_witness :
    (handleUpdateAssignment emptyStore 0 "5" none).1 = .notFound ∧
    (handleUpdateAssignment emptyStore 0 "5" none).1.statusCode = 404 :=
  update_nonexistent_404_precedes_body_400 emptyStore 0 "5" 5 none
    (by decide) (by decide) (by decide)

/-- Claim C1 (code-bug evidence): on an existing assignment and a body
whose role is pilot, the update handler performs no role validation and
does not return 400; it invokes the store update, which the role CHECK
constraint rejects, so the request ends in the 500 outcome with the row
unchanged. -/
theorem update_invalid_role_not_rejected_with_400 :
    handleUpdateAssignment sampleStore 200 "1" (some pilotBody) =
      (.serverError "Failed to update assignment", sampleStore) ∧
    (handleUpdateAssignment sampleStore 200 "1" (some pilotBody)).1.statusCode ≠ 400 := by
  decide

/-- Claim C7: deleting an existing id succeeds with 200, a second delete
of the same id yields 404, and the store-level delete is idempotent (it
reports no error and leaves the store fixed when the row is absent). -/
theorem delete_twice_200_then_404 (s : Store) (idStr : String) (id : Int) (a : Assignment)
    (hid : atoi idStr = some id)
    (hex : GetAssignmentByID s id = some a) :
    handleDeleteAssignment s idStr = (.okDeleted, DeleteAssignment s id) ∧
    handleDeleteAssignment (DeleteAssignment s id) idStr = (.notFound, DeleteAssignment s id) ∧
    DeleteAssignment (DeleteAssignment s id) id = DeleteAssignment s id := by
  have hgone : GetAssignmentByID (DeleteAssignment s id) id = none := by
    simp only [GetAssignmentByID, DeleteAssignment, List.find?_eq_none, List.mem_filter]
    intro x hx
    simp only [bne_iff_ne, ne_eq] at hx
    simp [hx.2]
  refine ⟨by simp [handleDeleteAssignment, hid, hex], ?_, ?_⟩
  · simp [handleDeleteAssignment, hid, hgone]
  · simp [DeleteAssignment, List.filter_filter]

/-- Claim C7 witness: delete id 1 twice on the singleton store. -/
theorem delete_twice_200_then_404_witness :
    handleDeleteAssignment sampleStore "1" = (.okDeleted, DeleteAssignment sampleStore 1) ∧
    handleDeleteAssignment (DeleteAssignment sampleStore 1) "1" =
      (.notFound, DeleteAssignment sampleStore 1) ∧
    DeleteAssignment (DeleteAssignment sampleStore 1) 1 = DeleteAssignment sampleStore 1 :=
  delete_twice_200_then_404 sampleStore "1" 1 sampleRow (by decide) (by decide)

/-- Claim C8: a create whose role is outside driver/conductor always ends
in a 400 outcome and never reaches the store insert (whatever else the
body or the dates contain, every path is a 400 before the store call). -/
theorem create_invalid_role_400_store_untouched
    (s : Store) (now : Nat) (body : RawCreateBody)
    (h1 : body.role.getD "" ≠ "driver") (h2 : body.role.getD "" ≠ "conductor") :
    (handleCreateAssignment s now (some body)).1.statusCode = 400 ∧
    (handleCreateAssignment s now (some body)).2 = s := by
  simp only [handleCreateAssignment, shouldBindJSON, bindCreateRequest, Option.some_bind]
  by_cases hc : (body.bus_id.getD 0 = 0 ∨ body.staff_id.getD 0 = 0 ∨
      body.role.getD "" = "" ∨ body.start_date.getD "" = "")
  · rw [if_pos hc]
    exact ⟨rfl, rfl⟩
  · rw [if_neg hc]
    cases hp : parseDate (body.start_date.getD "") with
    | none => simp [hp, CreateResult.statusCode]
    | some sd =>
      cases he : parseEndDate (body.end_date.getD "") with
      | none => simp [hp, he, CreateResult.statusCode]
      | some ed => simp [hp, he, h1, h2, CreateResult.statusCode]

/-- Claim C8 witness: role pilot on the empty store. -/
theorem create_invalid_role_400_store_untouched_witness :
    (handleCreateAssignment emptyStore 0 (some pilotBody)).1.statusCode = 400 ∧
    (handleCreateAssignment emptyStore 0 (some pilotBody)).2 = emptyStore :=
  create_invalid_role_400_store_untouched emptyStore 0 pilotBody (by decide) (by decide)

/-- Claim C10: a create whose bus_id or staff_id is zero or absent fails
the required binding with 400 and never reaches the store, so id value 0
cannot be persisted through create. -/
theorem create_zero_or_missing_id_400_store_untouched
    (s : Store) (now : Nat) (body : RawCreateBody)
    (hz : body.bus_id.getD 0 = 0 ∨ body.staff_id.getD 0 = 0) :
    (handleCreateAssignment s now (some body)).1.statusCode = 400 ∧
    (handleCreateAssignment s now (some body)).2 = s := by
  simp only [handleCreateAssignment, shouldBindJSON, bindCreateRequest, Option.some_bind]
  have hc : (body.bus_id.getD 0 = 0 ∨ body.staff_id.getD 0 = 0 ∨
      body.role.getD "" = "" ∨ body.start_date.getD "" = "") := by
    rcases hz with h | h
    · exact Or.inl h
    · exact Or.inr (Or.inl h)
  rw [if_pos hc]
  exact ⟨rfl, rfl⟩

/-- Claim C10 witness: zero bus_id and absent staff_id. -/
theorem create_zero_or_missing_id_400_store_untouched_witness :
    (handleCreateAssignment emptyStore 0 (some
      { bus_id := some 0, staff_id := none, role := some "driver",
        start_date := some "2025-09-21", end_date := none })).1.statusCode = 400 ∧
    (handleCreateAssignment emptyStore 0 (some
      { bus_id := some 0, staff_id := none, role := some "driver",
        start_date := some "2025-09-21", end_date := none })).2 = emptyStore :=
  create_zero_or_missing_id_400_store_untouched emptyStore 0 _ (by decide)

/-- Claim C3: a create with a bound body, parsable dates, a valid role,
no uniqueness conflict and a well-formed store persists the assignment
with status active, returns the full stored record with the fresh id and
timestamps, and re-fetching that id returns the identical record. -/
theorem create_valid_persists_and_refetches
    (s : Store) (now : Nat) (body : RawCreateBody)
    (req : CreateAssignmentRequest) (sd : Date) (ed : Option Date)
    (hbind : bindCreateRequest body = some req)
    (hsd : parseDate req.start_date = some sd)
    (hed : parseEndDate req.end_date = some ed)
    (hrole : req.role = "driver" ∨ req.role = "conductor")
    (hdup : uniqueConflict s.rows req.bus_id req.staff_id req.role sd = false)
    (hwf : s.WF) :
    ∃ res s2, handleCreateAssignment s now (some body) = (.created res, s2) ∧
      res.status = "active" ∧ res.id = s.nextId ∧ res.created_at = now ∧
      res.updated_at = now ∧ res.bus_id = req.bus_id ∧ res.staff_id = req.staff_id ∧
      res.role = req.role ∧ res.start_date = sd ∧ res.end_date = ed ∧
      GetAssignmentByID s2 res.id = some res := by
  have hrole2 : ¬(req.role ≠ "driver" ∧ req.role ≠ "conductor") := by
    rcases hrole with h | h <;> simp [h]
  have hrc : roleCheckOK req.role = true := by
    rcases hrole with h | h <;> simp [roleCheckOK, h]
  have hA : ∃ A : Assignment, A =
      { id := s.nextId, bus_id := req.bus_id, staff_id := req.staff_id,
        role := req.role, start_date := sd, end_date := ed, status := "active",
        created_at := now, updated_at := now } := ⟨_, rfl⟩
  obtain ⟨A, hAdef⟩ := hA
  refine ⟨A, { rows := s.rows ++ [A], nextId := s.nextId + 1 },
          ?_, by rw [hAdef], by rw [hAdef], by rw [hAdef], by rw [hAdef],
          by rw [hAdef], by rw [hAdef], by rw [hAdef], by rw [hAdef],
          by rw [hAdef], ?_⟩
  · simp only [handleCreateAssignment, shouldBindJSON, Option.some_bind, hbind, hsd, hed]
    rw [if_neg hrole2]
    simp [CreateAssignment, hrc, hdup, statusCheckOK, hAdef]
  · have hnone : s.rows.find? (fun a => a.id == s.nextId) = none := by
      rw [List.find?_eq_none]
      intro x hx
      have hlt := hwf.2 x hx
      simp only [beq_iff_eq]
      exact fun h => absurd h (Int.ne_of_lt hlt)
    rw [hAdef]
    simp [GetAssignmentByID, List.find?_append, hnone]

/-- Claim C3 witness: a valid driver create on the empty store. -/
theorem create_valid_persists_and_refetches_witness :
    ∃ res s2, handleCreateAssignment emptyStore 7 (some validBody) = (.created res, s2) ∧
      res.status = "active" ∧ res.id = emptyStore.nextId ∧ res.created_at = 7 ∧
      res.updated_at = 7 ∧ res.bus_id = 1 ∧ res.staff_id = 1 ∧
      res.role = "driver" ∧ res.start_date = ⟨2025, 9, 21⟩ ∧ res.end_date = none ∧
      GetAssignmentByID s2 res.id = some res :=
  create_valid_persists_and_refetches emptyStore 7 validBody
    { bus_id := 1, staff_id := 1, role := "driver",
      start_date := "2025-09-21", end_date := "" }
    ⟨2025, 9, 21⟩ none (by decide) (by decide) (by decide)
    (Or.inl rfl) (by decide) (by decide)

/-- Claim C6: on every successful update of an existing assignment only
the five request fields and updated_at change on the returned record:
id, status and created_at are carried over from the pre-existing record,
updated_at is refreshed to the update time, and every other row of the
store is preserved. -/
theorem update_success_only_mutable_fields_change
    (s : Store) (now : Nat) (idStr : String) (id : Int)
    (body : Option RawCreateBody) (req : CreateAssignmentRequest)
    (old : Assignment) (sd : Date) (ed : Option Date) (a : Assignment) (s2 : Store)
    (hid : atoi idStr = some id)
    (hold : GetAssignmentByID s id = some old)
    (hbind : shouldBindJSON body = some req)
    (hsd : parseDate req.start_date = some sd)
    (hed : parseEndDate req.end_date = some ed)
    (hres : handleUpdateAssignment s now idStr body = (.updated a, s2)) :
    a.id = old.id ∧ a.status = old.status ∧ a.created_at = old.created_at ∧
    a.updated_at = now ∧ a.bus_id = req.bus_id ∧ a.staff_id = req.staff_id ∧
    a.role = req.role ∧ a.start_date = sd ∧ a.end_date = ed ∧
    ∀ r ∈ s.rows, r.id ≠ id → r ∈ s2.rows := by
  have hoid : old.id = id := by
    have h := List.find?_some hold
    simpa using h
  simp only [handleUpdateAssignment, hid, hold, hbind, hsd, hed] at hres
  cases hu : UpdateAssignment s now
      { id := old.id, bus_id := req.bus_id, staff_id := req.staff_id, role := req.role,
        start_date := sd, end_date := ed, status := old.status,
        created_at := old.created_at, updated_at := old.updated_at } with
  | error e =>
    rw [hu] at hres
    simp at hres
  | ok p =>
    obtain ⟨s2', a'⟩ := p
    rw [hu] at hres
    simp only [UpdateResult.updated.injEq, Prod.mk.injEq] at hres
    obtain ⟨ha, hs⟩ := hres
    simp only [UpdateAssignment] at hu
    split at hu
    · simp at hu
    split at hu
    · simp at hu
    split at hu
    · simp at hu
    split at hu
    · simp at hu
    simp only [Except.ok.injEq, Prod.mk.injEq] at hu
    obtain ⟨hs', ha'⟩ := hu
    subst ha ha' hs hs'
    refine ⟨rfl, rfl, rfl, rfl, rfl, rfl, rfl, rfl, rfl, ?_⟩
    intro r hr hne
    simp only [List.mem_map]
    refine ⟨r, hr, ?_⟩
    have : (r.id == old.id) = false := by
      simp [hoid, hne]
    simp [this]

/-- Claim C6 witness: a successful concrete update of sampleRow. -/
theorem update_success_only_mutable_fields_change_witness :
    updatedSampleRow.id = sampleRow.id ∧ updatedSampleRow.status = sampleRow.status ∧
    updatedSampleRow.created_at = sampleRow.created_at ∧
    updatedSampleRow.updated_at = 200 ∧ updatedSampleRow.bus_id = 2 ∧
    updatedSampleRow.staff_id = 2 ∧ updatedSampleRow.role = "conductor" ∧
    updatedSampleRow.start_date = ⟨2025, 10, 1⟩ ∧
    updatedSampleRow.end_date = some ⟨2025, 12, 31⟩ ∧
    ∀ r ∈ sampleStore.rows, r.id ≠ 1 → r ∈ updatedSampleStore.rows :=
  update_success_only_mutable_fields_change sampleStore 200 "1" 1 (some updBody)
    { bus_id := 2, staff_id := 2, role := "conductor",
      start_date := "2025-10-01", end_date := "2025-12-31" }
    sampleRow ⟨2025, 10, 1⟩ (some ⟨2025, 12, 31⟩) updatedSampleRow updatedSampleStore
    (by decide) (by decide) (by decide) (by decide) (by decide) (by decide)

/-- Claim C4: the list-by-bus endpoint returns exactly the stored rows of
that bus whose status is active, each mapped through the staff-only
enrichment, in an envelope carrying the bus id and a count equal to the
number of returned assignments; no element carries bus enrichment, and
staff fields are populated exactly when the staff id is in the lookup. -/
theorem bus_query_active_only_staff_enriched
    (s : Store) (busIdStr : String) (busID : Int)
    (hid : atoi busIdStr = some busID) :
    handleGetStaffForBus s busIdStr = .ok
      { bus_id := busID,
        assignments := (s.rows.filter fun a =>
            a.bus_id == busID && a.status == "active").map staffDetails,
        count := ((s.rows.filter fun a =>
            a.bus_id == busID && a.status == "active").map staffDetails).length } ∧
    ∀ d ∈ (s.rows.filter fun a =>
        a.bus_id == busID && a.status == "active").map staffDetails,
      d.bus_plate_number = none ∧ d.bus_model = none ∧
      d.staff_name = (mockStaff d.assignment.staff_id).map Prod.fst ∧
      d.staff_position = (mockStaff d.assignment.staff_id).map Prod.snd := by
  constructor
  · simp only [handleGetStaffForBus, hid, GetAssignmentsByBusID]
    rw [foldl_filter_append (fun a => a.status = "active") staffDetails]
    simp only [List.nil_append, List.filter_filter]
    have hsame : (s.rows.filter fun a =>
        decide (a.status = "active") && (a.bus_id == busID)) =
        (s.rows.filter fun a => a.bus_id == busID && a.status == "active") := by
      apply List.filter_congr
      intro x _
      by_cases h1 : x.bus_id = busID <;> by_cases h2 : x.status = "active" <;>
        simp [h1, h2]
    rw [hsame]
  · intro d hd
    simp only [List.mem_map] at hd
    obtain ⟨x, -, rfl⟩ := hd
    unfold staffDetails
    cases h : mockStaff x.staff_id with
    | none => simp [h]
    | some pr =>
      obtain ⟨n, p⟩ := pr
      simp [h]

/-- Claim C5: the list-by-staff endpoint returns all stored rows of that
staff id regardless of status, each mapped through the bus-only
enrichment, in an envelope carrying the staff id and a count equal to
the number of returned assignments; no element carries staff enrichment,
and bus fields are populated exactly when the bus id is in the lookup. -/
theorem staff_query_all_statuses_bus_enriched
    (s : Store) (staffIdStr : String) (staffID : Int)
    (hid : atoi staffIdStr = some staffID) :
    handleGetAssignmentsForStaff s staffIdStr = .ok
      { staff_id := staffID,
        assignments := (s.rows.filter fun a => a.staff_id == staffID).map busDetails,
        count := ((s.rows.filter fun a => a.staff_id == staffID).map busDetails).length } ∧
    ∀ d ∈ (s.rows.filter fun a => a.staff_id == staffID).map busDetails,
      d.staff_name = none ∧ d.staff_position = none ∧
      d.bus_plate_number = (mockBuses d.assignment.bus_id).map Prod.fst ∧
      d.bus_model = (mockBuses d.assignment.bus_id).map Prod.snd := by
  constructor
  · simp only [handleGetAssignmentsForStaff, hid, GetAssignmentsByStaffID]
    rw [foldl_append_map busDetails]
    simp
  · intro d hd
    simp only [List.mem_map] at hd
    obtain ⟨x, -, rfl⟩ := hd
    unfold busDetails
    cases h : mockBuses x.bus_id with
    | none => simp [h]
    | some pr =>
      obtain ⟨pl, mo⟩ := pr
      simp [h]

/-- Claim C4 witness: bus 1 of a store holding one active and one
cancelled bus-1 row plus an unrelated bus-2 row. -/
theorem bus_query_active_only_staff_enriched_witness :
    handleGetStaffForBus listStore "1" = .ok
      { bus_id := 1,
        assignments := (listStore.rows.filter fun a =>
            a.bus_id == 1 && a.status == "active").map staffDetails,
        count := ((listStore.rows.filter fun a =>
            a.bus_id == 1 && a.status == "active").map staffDetails).length } ∧
    ∀ d ∈ (listStore.rows.filter fun a =>
        a.bus_id == 1 && a.status == "active").map staffDetails,
      d.bus_plate_number = none ∧ d.bus_model = none ∧
      d.staff_name = (mockStaff d.assignment.staff_id).map Prod.fst ∧
      d.staff_position = (mockStaff d.assignment.staff_id).map Prod.snd :=
  bus_query_active_only_staff_enriched listStore "1" 1 (by decide)

/-- Claim C5 witness: staff 2 of the same store, whose only row is
cancelled yet still returned. -/
theorem staff_query_all_statuses_bus_enriched_witness :
    handleGetAssignmentsForStaff listStore "2" = .ok
      { staff_id := 2,
        assignments := (listStore.rows.filter fun a => a.staff_id == 2).map busDetails,
        count := ((listStore.rows.filter fun a => a.staff_id == 2).map busDetails).length } ∧
    ∀ d ∈ (listStore.rows.filter fun a => a.staff_id == 2).map busDetails,
      d.staff_name = none ∧ d.staff_position = none ∧
      d.bus_plate_number = (mockBuses d.assignment.bus_id).map Prod.fst ∧
      d.bus_model = (mockBuses d.assignment.bus_id).map Prod.snd :=
  staff_query_all_statuses_bus_enriched listStore "2" 2 (by decide)
